import Mathlib

/-!
Verification of the string bridge of the rusty_jsc repository
(src/string.rs): the encoder, decoder and equality layer between
native UTF-8 strings and external engine string handles.

Native strings are modelled as their UTF-8 byte sequences
(`List Nat`), matching the byte-exact semantics of the layer.
Fallible operations (Rust panics) are modelled with `Option`:
`none` stands for a panic of the Rust code.
-/

set_option autoImplicit false
set_option maxRecDepth 8192

namespace RustyJsc

/-- The small-string threshold used by the encoder, decoder and
equality paths (`SMALL_STRING_SIZE` in src/string.rs). -/
def SMALL_STRING_SIZE : Nat := 128

/-- The byte content of a C string buffer up to (excluding) the first
zero byte: how a null-terminated buffer is read by the collaborator. -/
def takeUntilZero : List Nat → List Nat
  | [] => []
  | b :: rest => if b = 0 then [] else b :: takeUntilZero rest

/-- Modelled from the spec: an external string handle owned by the
host engine, identified by the UTF-8 byte content of its text.  The
engine primitives below are collaborators that the spec declares out
of scope and assumed correct; they are modelled from section 6 of the
spec. -/
structure ExternalStringHandle where
  content : List Nat
deriving DecidableEq

/-- The wrapper type of src/string.rs: it owns one external handle. -/
structure JSString where
  raw : ExternalStringHandle
deriving DecidableEq

namespace sys

/-- Modelled from the spec: `create_handle_from_utf8_cstring(ptr)`.
The creation primitive reads the buffer as a null-terminated UTF-8
C string, so the handle text is the bytes before the first zero. -/
def JSStringCreateWithUTF8CString (buf : List Nat) : ExternalStringHandle :=
  ⟨takeUntilZero buf⟩

/-- Modelled from the spec: `get_max_utf8_size(handle)` returns a byte
upper bound, terminator included, for the UTF-8 encoding.  The exact
bound (content length plus one terminator byte) is the tightest model
consistent with the spec. -/
def JSStringGetMaximumUTF8CStringSize (h : ExternalStringHandle) : Nat :=
  h.content.length + 1

/-- Modelled from the spec: `fill_utf8_buffer(handle, buffer, size)`.
Returns the bytes written into the buffer and their count, terminator
included; it never writes more than `bufSize` bytes. -/
def JSStringGetUTF8CString (h : ExternalStringHandle) (bufSize : Nat) :
    List Nat × Nat :=
  if h.content.length + 1 ≤ bufSize then
    (h.content ++ [0], h.content.length + 1)
  else
    (h.content.take (bufSize - 1) ++ [0], bufSize)

/-- Modelled from the spec: `handles_equal(a, b)`; equality of the
handle texts, byte exact. -/
def JSStringIsEqual (a b : ExternalStringHandle) : Bool :=
  decide (a.content = b.content)

/-- Modelled from the spec: `handle_equals_utf8_cstring(handle, ptr)`;
the buffer is read as a null-terminated C string and compared byte
exactly against the handle text. -/
def JSStringIsEqualToUTF8CString (h : ExternalStringHandle) (buf : List Nat) :
    Bool :=
  decide (h.content = takeUntilZero buf)

end sys

/-- Whether a byte is a UTF-8 continuation byte (0x80 - 0xBF). -/
def utf8Cont (b : Nat) : Bool := 0x80 ≤ b && b ≤ 0xBF

/-- UTF-8 well-formedness of a byte sequence, as checked by the Rust
standard library functions `str::from_utf8` and `String::from_utf8`:
excludes overlong forms, surrogates and values above U+10FFFF. -/
def utf8Valid : List Nat → Bool
  | [] => true
  | b :: rest =>
    if b ≤ 0x7F then utf8Valid rest
    else if 0xC2 ≤ b && b ≤ 0xDF then
      match rest with
      | b1 :: rest1 => utf8Cont b1 && utf8Valid rest1
      | [] => false
    else if b = 0xE0 then
      match rest with
      | b1 :: b2 :: rest2 =>
        (0xA0 ≤ b1 && b1 ≤ 0xBF) && utf8Cont b2 && utf8Valid rest2
      | _ => false
    else if (0xE1 ≤ b && b ≤ 0xEC) || b = 0xEE || b = 0xEF then
      match rest with
      | b1 :: b2 :: rest2 => utf8Cont b1 && utf8Cont b2 && utf8Valid rest2
      | _ => false
    else if b = 0xED then
      match rest with
      | b1 :: b2 :: rest2 =>
        (0x80 ≤ b1 && b1 ≤ 0x9F) && utf8Cont b2 && utf8Valid rest2
      | _ => false
    else if b = 0xF0 then
      match rest with
      | b1 :: b2 :: b3 :: rest3 =>
        (0x90 ≤ b1 && b1 ≤ 0xBF) && utf8Cont b2 && utf8Cont b3 && utf8Valid rest3
      | _ => false
    else if 0xF1 ≤ b && b ≤ 0xF3 then
      match rest with
      | b1 :: b2 :: b3 :: rest3 =>
        utf8Cont b1 && utf8Cont b2 && utf8Cont b3 && utf8Valid rest3
      | _ => false
    else if b = 0xF4 then
      match rest with
      | b1 :: b2 :: b3 :: rest3 =>
        (0x80 ≤ b1 && b1 ≤ 0x8F) && utf8Cont b2 && utf8Cont b3 && utf8Valid rest3
      | _ => false
    else false

/-- Which allocation path an operation took. -/
inductive AllocPath where
  | stack : AllocPath
  | heap : AllocPath
deriving DecidableEq

/-- The 129-byte on-stack buffer built by the small-string paths of
`js_string_from_str` and `js_string_equals_str`: a zero-initialized
`[0u8; SMALL_STRING_SIZE + 1]` array whose first `s.len()` bytes are
the input bytes; the explicit terminator write at index `s.len()`
stores a zero over an already zero byte, so the buffer equals the
input followed by zero padding. -/
def stackBuffer (s : List Nat) : List Nat :=
  s ++ List.replicate (SMALL_STRING_SIZE + 1 - s.length) 0

/-- The null-terminated buffer built by `js_string_from_str`
(src/string.rs lines 143-166) together with the path taken: input
bytes below the threshold go to the stack buffer; otherwise
`CString::new(s.as_bytes()).unwrap()` builds a heap buffer sized to
the input, and panics (`none`) when the input holds a zero byte. -/
def encodeBuffer (s : List Nat) : Option (AllocPath × List Nat) :=
  if s.length < SMALL_STRING_SIZE then
    some (AllocPath.stack, stackBuffer s)
  else if 0 ∈ s then
    none
  else
    some (AllocPath.heap, s ++ [0])

/-- The function js_string_from_str (src/string.rs lines 143-166),
the body of both `From` conversions: build the null-terminated buffer and hand its
address to the creation primitive.  `none` is a panic. -/
def js_string_from_str (s : List Nat) : Option JSString :=
  (encodeBuffer s).map (fun p => ⟨sys.JSStringCreateWithUTF8CString p.2⟩)

/-- The transient null-terminated buffer built by
`js_string_equals_str` (src/string.rs lines 97-116), written out
independently from the encoder to mirror its own source lines: the
same threshold comparison, the same stack array with terminator, and
the same `CString::new(...).unwrap()` fallback. -/
def equalsBuffer (rust_str : List Nat) : Option (AllocPath × List Nat) :=
  if rust_str.length < SMALL_STRING_SIZE then
    some (AllocPath.stack,
      rust_str ++ List.replicate (SMALL_STRING_SIZE + 1 - rust_str.length) 0)
  else if 0 ∈ rust_str then
    none
  else
    some (AllocPath.heap, rust_str ++ [0])

/-- The function js_string_equals_str (src/string.rs lines 97-116):
compare a
handle against a native string through a transient buffer and the
cstring comparison primitive, without constructing a handle and
without decoding.  `none` is a panic of the `unwrap` on the heap
path. -/
def js_string_equals_str (js_string : JSString) (rust_str : List Nat) :
    Option Bool :=
  (equalsBuffer rust_str).map
    (fun p => sys.JSStringIsEqualToUTF8CString js_string.raw p.2)

/-- The impl `PartialEq<&str> for JSString` (src/string.rs line 118). -/
def eq_jsstring_str (a : JSString) (b : List Nat) : Option Bool :=
  js_string_equals_str a b

/-- The impl `PartialEq<String> for JSString` (src/string.rs line 124). -/
def eq_jsstring_string (a : JSString) (b : List Nat) : Option Bool :=
  js_string_equals_str a b

/-- The impl `PartialEq<JSString> for &str` (src/string.rs line 130). -/
def eq_str_jsstring (a : List Nat) (b : JSString) : Option Bool :=
  js_string_equals_str b a

/-- The impl `PartialEq<JSString> for String` (src/string.rs line 136). -/
def eq_string_jsstring (a : List Nat) (b : JSString) : Option Bool :=
  js_string_equals_str b a

/-- The impl `PartialEq for JSString` (src/string.rs line 91):
delegate to the handle equality primitive. -/
def eq_jsstring_jsstring (a b : JSString) : Bool :=
  sys.JSStringIsEqual a.raw b.raw

/-- Observable data of one run of the `fmt::Display` decode
(src/string.rs lines 48-83): which path was taken, the buffer size
passed to the fill primitive, the bytes the fill wrote, the reported
count, and the decoded result (`none` is a panic). -/
structure DecodeTrace where
  usedStack : Bool
  bufSize : Nat
  written : List Nat
  actual : Nat
  result : Option (List Nat)
deriving DecidableEq

/-- The `fmt::Display` decode logic with the fill collaborator call
abstracted: `fill bufSize` returns the bytes written into a buffer of
`bufSize` bytes and the reported count.  On the stack path the bytes
are read back from the zero-initialized 128-byte array, so unwritten
positions read as zero; `actual = 0` makes `actual - 1` underflow the
unsigned length (a panic, `none`), and a slice end beyond the stack
array is likewise a panic; invalid UTF-8 makes `unwrap` panic. -/
def displayTraceWithFill (maxSize : Nat) (fill : Nat → List Nat × Nat) :
    DecodeTrace :=
  if maxSize ≤ SMALL_STRING_SIZE then
    let r := fill SMALL_STRING_SIZE
    { usedStack := true
      bufSize := SMALL_STRING_SIZE
      written := r.1
      actual := r.2
      result :=
        if r.2 = 0 then none
        else if SMALL_STRING_SIZE < r.2 - 1 then none
        else
          let bytes := (r.1 ++ List.replicate (SMALL_STRING_SIZE - r.1.length) 0).take (r.2 - 1)
          if utf8Valid bytes then some bytes else none }
  else
    let r := fill maxSize
    { usedStack := false
      bufSize := maxSize
      written := r.1
      actual := r.2
      result :=
        if r.2 = 0 then none
        else
          let bytes := r.1.take (r.2 - 1)
          if utf8Valid bytes then some bytes else none }

/-- The decode result alone, with the fill step abstracted. -/
def displayWithFill (maxSize : Nat) (fill : Nat → List Nat × Nat) :
    Option (List Nat) :=
  (displayTraceWithFill maxSize fill).result

/-- One full run of the `fmt::Display` decode of a handle: query the
byte bound first, then branch, allocate and fill. -/
def displayTrace (s : JSString) : DecodeTrace :=
  displayTraceWithFill (sys.JSStringGetMaximumUTF8CStringSize s.raw)
    (sys.JSStringGetUTF8CString s.raw)

/-- The decoded native string of a handle, as produced by
`to_string`, `String::from(&JSString)` and the `Display` and `Debug`
formatting (all route through the same `fmt` body).  `none` is a
panic. -/
def jsToString (s : JSString) : Option (List Nat) :=
  (displayTrace s).result

/-! ## Auxiliary lemmas -/

theorem takeUntilZero_append_zero (s t : List Nat) :
    takeUntilZero (s ++ 0 :: t) = takeUntilZero s := by
  induction s with
  | nil => simp [takeUntilZero]
  | cons b s ih =>
    by_cases hb : b = 0 <;> simp [takeUntilZero, hb, ih]

theorem takeUntilZero_of_not_mem (s : List Nat) (h : 0 ∉ s) :
    takeUntilZero s = s := by
  induction s with
  | nil => rfl
  | cons b s ih =>
    simp only [List.mem_cons, not_or] at h
    have hb : b ≠ 0 := fun hb => h.1 hb.symm
    simp [takeUntilZero, hb, ih h.2]

theorem takeUntilZero_length_lt (s : List Nat) (h : 0 ∈ s) :
    (takeUntilZero s).length < s.length := by
  induction s with
  | nil => simp at h
  | cons b s ih =>
    by_cases hb : b = 0
    · simp [takeUntilZero, hb]
    · simp only [List.mem_cons] at h
      rcases h with h | h
      · exact absurd h.symm hb
      · simpa [takeUntilZero, hb] using ih h

theorem stackBuffer_eq (s : List Nat) (h : s.length ≤ SMALL_STRING_SIZE) :
    stackBuffer s = s ++ 0 :: List.replicate (SMALL_STRING_SIZE - s.length) 0 := by
  have : SMALL_STRING_SIZE + 1 - s.length = (SMALL_STRING_SIZE - s.length) + 1 := by
    simp only [SMALL_STRING_SIZE] at *; omega
  simp [stackBuffer, this, List.replicate_succ]

theorem takeUntilZero_stackBuffer (s : List Nat) (h : s.length ≤ SMALL_STRING_SIZE) :
    takeUntilZero (stackBuffer s) = takeUntilZero s := by
  rw [stackBuffer_eq s h, takeUntilZero_append_zero]

theorem js_string_from_str_of_not_mem (s : List Nat) (h0 : 0 ∉ s) :
    js_string_from_str s = some ⟨⟨s⟩⟩ := by
  unfold js_string_from_str encodeBuffer
  by_cases hlen : s.length < SMALL_STRING_SIZE
  · rw [if_pos hlen]
    simp [sys.JSStringCreateWithUTF8CString,
      takeUntilZero_stackBuffer s (le_of_lt hlen), takeUntilZero_of_not_mem s h0]
  · rw [if_neg hlen, if_neg h0]
    simp [sys.JSStringCreateWithUTF8CString, takeUntilZero_append_zero,
      takeUntilZero_of_not_mem s h0]

theorem displayTrace_small (c : List Nat) (h : c.length + 1 ≤ SMALL_STRING_SIZE) :
    displayTrace ⟨⟨c⟩⟩ =
      { usedStack := true, bufSize := SMALL_STRING_SIZE, written := c ++ [0],
        actual := c.length + 1,
        result := if utf8Valid c then some c else none } := by
  have hz : ¬(c.length + 1 = 0) := by omega
  have hsl : ¬(SMALL_STRING_SIZE < c.length + 1 - 1) := by
    simp only [SMALL_STRING_SIZE] at *; omega
  have hbytes : ∀ t : List Nat, (c ++ t).take (c.length + 1 - 1) = c := by
    intro t
    simp
  simp only [displayTrace, displayTraceWithFill, sys.JSStringGetMaximumUTF8CStringSize,
    sys.JSStringGetUTF8CString, if_pos h, if_neg hz, if_neg hsl,
    List.append_assoc, hbytes]

theorem displayTrace_large (c : List Nat) (h : SMALL_STRING_SIZE < c.length + 1) :
    displayTrace ⟨⟨c⟩⟩ =
      { usedStack := false, bufSize := c.length + 1, written := c ++ [0],
        actual := c.length + 1,
        result := if utf8Valid c then some c else none } := by
  have hnot : ¬(c.length + 1 ≤ SMALL_STRING_SIZE) := by omega
  have hfill : c.length + 1 ≤ c.length + 1 := le_refl _
  have hz : ¬(c.length + 1 = 0) := by omega
  have hbytes : (c ++ [0]).take (c.length + 1 - 1) = c := by
    simp
  simp only [displayTrace, displayTraceWithFill, sys.JSStringGetMaximumUTF8CStringSize,
    sys.JSStringGetUTF8CString, if_neg hnot, if_pos hfill, if_neg hz, hbytes]

theorem jsToString_eq (c : List Nat) :
    jsToString ⟨⟨c⟩⟩ = if utf8Valid c then some c else none := by
  unfold jsToString
  by_cases h : c.length + 1 ≤ SMALL_STRING_SIZE
  · rw [displayTrace_small c h]
  · rw [displayTrace_large c (by omega)]

theorem equalsBuffer_eq_encodeBuffer (s : List Nat) :
    equalsBuffer s = encodeBuffer s := rfl

theorem js_string_equals_str_of_not_mem (h : JSString) (s : List Nat)
    (hz : 0 ∉ s) :
    js_string_equals_str h s = some (decide (h.raw.content = s)) := by
  unfold js_string_equals_str
  rw [equalsBuffer_eq_encodeBuffer]
  unfold encodeBuffer
  by_cases hlen : s.length < SMALL_STRING_SIZE
  · rw [if_pos hlen]
    simp [sys.JSStringIsEqualToUTF8CString,
      takeUntilZero_stackBuffer s (le_of_lt hlen), takeUntilZero_of_not_mem s hz]
  · rw [if_neg hlen, if_neg hz]
    simp [sys.JSStringIsEqualToUTF8CString, takeUntilZero_append_zero,
      takeUntilZero_of_not_mem s hz]

/-! ## Claims -/

/-- Claim C1: for every native UTF-8 string without embedded zero
bytes, decoding the handle produced by encoding it (the route taken by
String::from and to_string) yields the same string again. -/
theorem round_trip (s : List Nat) (hv : utf8Valid s = true) (hz : 0 ∉ s) :
    (js_string_from_str s).bind jsToString = some s := by
  rw [js_string_from_str_of_not_mem s hz]
  simp [jsToString_eq, hv]

/-- Claim C1, witness: the round trip at a concrete two-byte string. -/
theorem round_trip_witness :
    utf8Valid [104, 105] = true ∧ 0 ∉ ([104, 105] : List Nat) ∧
    (js_string_from_str [104, 105]).bind jsToString = some [104, 105] :=
  ⟨by decide, by decide, round_trip [104, 105] (by decide) (by decide)⟩

/-- Claim C2, counterexample: a 128-byte input containing a zero byte
makes the encoder panic (the unwrap of CString::new on the heap path),
so the encoding path does surface a failure for inputs of byte length
128 or more, contrary to the claim. -/
theorem encode_nul_long_panics :
    (List.replicate 127 97 ++ [0]).length = 128 ∧
    0 ∈ List.replicate 127 97 ++ [0] ∧
    js_string_from_str (List.replicate 127 97 ++ [0]) = none := by decide

/-- Claim C2 (amended): for inputs under 128 bytes containing a zero
byte, construction silently truncates the logical content at the first
zero byte with no surfaced failure; for inputs of 128 bytes or more
containing a zero byte, construction panics instead of truncating. -/
theorem embedded_zero_truncation (s : List Nat) (hz : 0 ∈ s) :
    (s.length < SMALL_STRING_SIZE →
      js_string_from_str s = some ⟨⟨takeUntilZero s⟩⟩ ∧
      (takeUntilZero s).length < s.length) ∧
    (SMALL_STRING_SIZE ≤ s.length → js_string_from_str s = none) := by
  constructor
  · intro hlen
    refine ⟨?_, takeUntilZero_length_lt s hz⟩
    unfold js_string_from_str encodeBuffer
    rw [if_pos hlen]
    simp [sys.JSStringCreateWithUTF8CString,
      takeUntilZero_stackBuffer s (le_of_lt hlen)]
  · intro hlen
    unfold js_string_from_str encodeBuffer
    rw [if_neg (by omega), if_pos hz]
    rfl

/-- Claim C2, witness: the silent truncation at a concrete short
input. -/
theorem embedded_zero_truncation_witness :
    0 ∈ ([97, 0] : List Nat) ∧ ([97, 0] : List Nat).length < SMALL_STRING_SIZE ∧
    js_string_from_str [97, 0] = some ⟨⟨[97]⟩⟩ ∧
    ([97] : List Nat).length < ([97, 0] : List Nat).length :=
  ⟨by decide, by decide,
   ((embedded_zero_truncation [97, 0] (by decide)).1 (by decide)).1,
   ((embedded_zero_truncation [97, 0] (by decide)).1 (by decide)).2⟩

/-- Claim C3, counterexample: a handle holding only the byte 97
compares equal, in both directions, to the native string holding the
bytes 97, 0, 98, although the two texts differ, because the
comparison reads the transient buffer as a C string and stops at the
embedded zero; so handle-vs-native equality does not coincide with
decoded-text identity for native strings with embedded zero bytes. -/
theorem eq_text_identity_cex :
    js_string_from_str [97] = some ⟨⟨[97]⟩⟩ ∧
    eq_jsstring_str ⟨⟨[97]⟩⟩ [97, 0, 98] = some true ∧
    eq_str_jsstring [97, 0, 98] ⟨⟨[97]⟩⟩ = some true ∧
    ([97] : List Nat) ≠ [97, 0, 98] := by decide

/-- Claim C3 (amended): cross-representation equality is symmetric for
every handle and every native string, for both the str-slice and the
String operators, and both operators agree; for native strings without
embedded zero bytes the comparison shapes are mutually consistent and
a handle equals a native string exactly when their texts are
identical. -/
theorem eq_symmetric_and_consistent (h : JSString) (s : List Nat) :
    eq_jsstring_str h s = eq_str_jsstring s h ∧
    eq_jsstring_string h s = eq_string_jsstring s h ∧
    eq_jsstring_str h s = eq_jsstring_string h s ∧
    (0 ∉ s → (eq_jsstring_str h s = some true ↔ h.raw.content = s)) ∧
    (0 ∉ s → ∀ h2 : JSString, js_string_from_str s = some h2 →
      (eq_jsstring_jsstring h h2 = true ↔ eq_jsstring_str h s = some true)) := by
  refine ⟨rfl, rfl, rfl, ?_, ?_⟩
  · intro hz
    rw [eq_jsstring_str, js_string_equals_str_of_not_mem h s hz]
    simp
  · intro hz h2 hh2
    rw [js_string_from_str_of_not_mem s hz] at hh2
    obtain rfl : h2 = ⟨⟨s⟩⟩ := by injection hh2 with hh2; exact hh2.symm ▸ rfl
    rw [eq_jsstring_str, js_string_equals_str_of_not_mem h s hz]
    simp [eq_jsstring_jsstring, sys.JSStringIsEqual]

/-- Claim C3, witness: consistency of the comparison shapes at a
concrete handle and string. -/
theorem eq_symmetric_and_consistent_witness :
    0 ∉ ([97] : List Nat) ∧
    (eq_jsstring_str ⟨⟨[97]⟩⟩ [97] = some true ↔ ([97] : List Nat) = [97]) ∧
    (eq_jsstring_jsstring ⟨⟨[97]⟩⟩ ⟨⟨[97]⟩⟩ = true ↔
      eq_jsstring_str ⟨⟨[97]⟩⟩ [97] = some true) :=
  ⟨by decide,
   (eq_symmetric_and_consistent ⟨⟨[97]⟩⟩ [97]).2.2.2.1 (by decide),
   (eq_symmetric_and_consistent ⟨⟨[97]⟩⟩ [97]).2.2.2.2 (by decide) ⟨⟨[97]⟩⟩
     (by decide)⟩

/-- Claim C4, counterexample: for the two-byte input 98, 0 the stack
path is taken and a handle is produced, but its text is the one-byte
prefix before the zero, not the input text; so the final clause of the
claim (the resulting handle represents the same Unicode text as the
input, for every input) fails. -/
theorem encoder_same_text_cex :
    ([98, 0] : List Nat).length < SMALL_STRING_SIZE ∧
    js_string_from_str [98, 0] = some ⟨⟨[98]⟩⟩ ∧
    ([98] : List Nat) ≠ [98, 0] := by decide

/-- Claim C4 (amended): for inputs without embedded zero bytes the
allocation strategy is as claimed: below 128 bytes the input is copied
into a fixed 129-byte stack buffer with a terminating zero at the
position equal to the input length and no heap allocation; at 128
bytes or more a heap-allocated null-terminated buffer sized to the
input is passed; and the resulting handle carries exactly the input
bytes. -/
theorem encoder_allocation_strategy (s : List Nat) (hz : 0 ∉ s) :
    (s.length < SMALL_STRING_SIZE →
      encodeBuffer s = some (AllocPath.stack, stackBuffer s) ∧
      (stackBuffer s).length = SMALL_STRING_SIZE + 1 ∧
      (stackBuffer s).take s.length = s ∧
      (stackBuffer s)[s.length]? = some 0) ∧
    (SMALL_STRING_SIZE ≤ s.length →
      encodeBuffer s = some (AllocPath.heap, s ++ [0]) ∧
      (s ++ [0]).length = s.length + 1) ∧
    js_string_from_str s = some ⟨⟨s⟩⟩ := by
  refine ⟨?_, ?_, js_string_from_str_of_not_mem s hz⟩
  · intro hlen
    refine ⟨by rw [encodeBuffer, if_pos hlen], ?_, ?_, ?_⟩
    · rw [stackBuffer]
      simp only [List.length_append, List.length_replicate, SMALL_STRING_SIZE] at *
      omega
    · rw [stackBuffer]
      exact List.take_left s _
    · rw [stackBuffer_eq s (le_of_lt hlen)]
      rw [List.getElem?_append_right (le_refl s.length)]
      simp
  · intro hlen
    refine ⟨?_, by simp⟩
    rw [encodeBuffer, if_neg (by omega), if_neg hz]

/-- Claim C4, witness: the stack path at a concrete one-byte input. -/
theorem encoder_allocation_strategy_witness :
    0 ∉ ([99] : List Nat) ∧ ([99] : List Nat).length < SMALL_STRING_SIZE ∧
    encodeBuffer [99] = some (AllocPath.stack, stackBuffer [99]) ∧
    (stackBuffer [99]).take 1 = [99] ∧
    (stackBuffer [99])[1]? = some 0 ∧
    js_string_from_str [99] = some ⟨⟨[99]⟩⟩ :=
  ⟨by decide, by decide,
   ((encoder_allocation_strategy [99] (by decide)).1 (by decide)).1,
   ((encoder_allocation_strategy [99] (by decide)).1 (by decide)).2.2.1,
   ((encoder_allocation_strategy [99] (by decide)).1 (by decide)).2.2.2,
   (encoder_allocation_strategy [99] (by decide)).2.2⟩

/-- Claim C5: the decoder queries the byte upper bound, uses the fixed
128-byte stack buffer when the bound is at most 128 and otherwise a
heap buffer of exactly the bound; the fill step writes the content
followed by the terminator and reports the byte count terminator
included; and every produced native string has byte length equal to
the reported count minus one. -/
theorem decoder_algorithm (h : JSString) :
    (sys.JSStringGetMaximumUTF8CStringSize h.raw ≤ SMALL_STRING_SIZE →
      (displayTrace h).usedStack = true ∧
      (displayTrace h).bufSize = SMALL_STRING_SIZE) ∧
    (SMALL_STRING_SIZE < sys.JSStringGetMaximumUTF8CStringSize h.raw →
      (displayTrace h).usedStack = false ∧
      (displayTrace h).bufSize = sys.JSStringGetMaximumUTF8CStringSize h.raw) ∧
    (displayTrace h).written = h.raw.content ++ [0] ∧
    (displayTrace h).actual = h.raw.content.length + 1 ∧
    (∀ bs, (displayTrace h).result = some bs →
      bs.length = (displayTrace h).actual - 1) := by
  obtain ⟨⟨c⟩⟩ := h
  simp only [sys.JSStringGetMaximumUTF8CStringSize]
  by_cases hle : c.length + 1 ≤ SMALL_STRING_SIZE
  · rw [displayTrace_small c hle]
    refine ⟨fun _ => ⟨rfl, rfl⟩, fun hgt => absurd hle (by omega), rfl, rfl, ?_⟩
    intro bs hbs
    by_cases hv : utf8Valid c = true
    · have hcb : c = bs := by simpa [hv] using hbs
      subst hcb
      simp
    · simp [hv] at hbs
  · rw [displayTrace_large c (by omega)]
    refine ⟨fun hle2 => absurd hle2 hle, fun _ => ⟨rfl, rfl⟩, rfl, rfl, ?_⟩
    intro bs hbs
    by_cases hv : utf8Valid c = true
    · have hcb : c = bs := by simpa [hv] using hbs
      subst hcb
      simp
    · simp [hv] at hbs

/-- Claim C5, witness: the stack path of the decoder at a concrete
one-byte handle. -/
theorem decoder_algorithm_witness :
    sys.JSStringGetMaximumUTF8CStringSize (⟨[97]⟩ : ExternalStringHandle) ≤
      SMALL_STRING_SIZE ∧
    (displayTrace ⟨⟨[97]⟩⟩).usedStack = true ∧
    (displayTrace ⟨⟨[97]⟩⟩).bufSize = SMALL_STRING_SIZE ∧
    (displayTrace ⟨⟨[97]⟩⟩).written = [97, 0] ∧
    (displayTrace ⟨⟨[97]⟩⟩).result = some [97] ∧
    ([97] : List Nat).length = (displayTrace ⟨⟨[97]⟩⟩).actual - 1 :=
  ⟨by decide,
   ((decoder_algorithm ⟨⟨[97]⟩⟩).1 (by decide)).1,
   ((decoder_algorithm ⟨⟨[97]⟩⟩).1 (by decide)).2,
   (decoder_algorithm ⟨⟨[97]⟩⟩).2.2.1,
   by decide,
   (decoder_algorithm ⟨⟨[97]⟩⟩).2.2.2.2 [97] (by decide)⟩

/-- Claim C6: when the bytes handed back by the fill step are not
well-formed UTF-8 the decode is a panic (the unwrap of the validation,
modelled as none), not a typed recoverable error; when they are
well-formed no such fatal condition occurs and the decoded string is
produced.  The decode is a single deterministic pass with no retry. -/
theorem decode_utf8_contract (h : JSString) :
    (utf8Valid h.raw.content = false → jsToString h = none) ∧
    (utf8Valid h.raw.content = true → jsToString h = some h.raw.content) := by
  obtain ⟨⟨c⟩⟩ := h
  rw [jsToString_eq]
  constructor
  · intro hv
    simp [hv]
  · intro hv
    simp [hv]

/-- Claim C6, witness: an invalid byte panics the decode, a valid one
decodes. -/
theorem decode_utf8_contract_witness :
    utf8Valid [255] = false ∧ jsToString ⟨⟨[255]⟩⟩ = none ∧
    utf8Valid [97] = true ∧ jsToString ⟨⟨[97]⟩⟩ = some [97] :=
  ⟨by decide, (decode_utf8_contract ⟨⟨[255]⟩⟩).1 (by decide), by decide,
   (decode_utf8_contract ⟨⟨[97]⟩⟩).2 (by decide)⟩

/-- Claim C7: the handle-vs-native comparison builds its transient
null-terminated buffer by exactly the encoder strategy (the two buffer
constructions coincide on every input) and delegates to the cstring
comparison primitive without constructing a persistent handle and
without decoding; consequently it always agrees, panics included, with
first encoding the native string and comparing handle to handle. -/
theorem equals_str_refines_encode (h : JSString) (s : List Nat) :
    equalsBuffer s = encodeBuffer s ∧
    js_string_equals_str h s =
      (js_string_from_str s).map
        (fun h2 => sys.JSStringIsEqual h.raw h2.raw) := by
  refine ⟨rfl, ?_⟩
  unfold js_string_equals_str js_string_from_str
  rw [equalsBuffer_eq_encodeBuffer]
  cases hE : encodeBuffer s <;>
    simp [hE, sys.JSStringIsEqualToUTF8CString, sys.JSStringIsEqual,
      sys.JSStringCreateWithUTF8CString]

/-- Claim C8: in every decode the buffer handed to the fill primitive
is at least as large as the collaborator-reported byte bound, which is
computed before the buffer exists, and the fill step writes no more
bytes than the buffer holds. -/
theorem decode_buffer_bound (h : JSString) :
    sys.JSStringGetMaximumUTF8CStringSize h.raw ≤ (displayTrace h).bufSize ∧
    (displayTrace h).written.length ≤ (displayTrace h).bufSize ∧
    (displayTrace h).actual ≤ (displayTrace h).bufSize := by
  obtain ⟨⟨c⟩⟩ := h
  simp only [sys.JSStringGetMaximumUTF8CStringSize]
  by_cases hle : c.length + 1 ≤ SMALL_STRING_SIZE
  · rw [displayTrace_small c hle]
    simp
    omega
  · rw [displayTrace_large c (by omega)]
    simp

/-- Claim C10: if the fill step reported zero bytes written, the
subtraction of the terminator from the unsigned count would be a fatal
failure on both the stack and the heap path of the decode, with no
guard; the decode never produces an empty string in that case. -/
theorem decode_zero_written_panics (maxSize : Nat) (buf : List Nat) :
    displayWithFill maxSize (fun _ => (buf, 0)) = none := by
  unfold displayWithFill displayTraceWithFill
  by_cases hle : maxSize ≤ SMALL_STRING_SIZE <;> simp [hle]

end RustyJsc
